import Mathlib

/-!
Verification of the Idyllium compiler front end.

This file gives a shallow embedding of the front end's three stages as they
are written in `src/tokens.py`, `src/lexer.py`, `src/iast.py`,
`src/parser.py` and `src/analyzer.py`, and proves the claims of the
specification against it.

Modelling conventions, used uniformly below:

* The scanner and parser consume a `List Char` / `List Token` from the front
  instead of moving an integer cursor over a fixed buffer; the consumed
  prefix that Python recovers by slicing (`source[start:current]`) is
  accumulated explicitly.  Token line/column metadata is dropped: it feeds
  only diagnostic message text, which no claim concerns; diagnostics are
  represented by tagged constructors, one per `raise`/`errors.append` site,
  instead of the formatted Russian message strings.
* Python exceptions become `Except` error values.  A distinguished
  constructor models each unhandled non-diagnostic exception the code can
  raise: `indexErr` for an out-of-bounds index (Python `IndexError`) and
  `nameErr` for an unbound local (Python `NameError`).
* The mutually recursive expression/statement grammar is embedded with an
  explicit fuel parameter (`outOfFuel` is the artifact error for exhausted
  fuel; any sufficiently large fuel behaves like the unbounded Python
  recursion).  The analyzer needs no fuel: it is structurally recursive over
  the AST.
* Python float values are never computed on by the front end, so a float
  literal carries its source text.
-/

namespace Idyllium

/-! ## tokens.py -/

/-- Token kinds: one constructor per member of `TokenType` in `tokens.py`. -/
inductive TokType where
  | use | main | int | float | bool | char | stringType | void
  | if_ | else_ | while_ | for_ | return_ | function
  | true_ | false_
  | lparen | rparen | lbrace | rbrace | lbracket | rbracket
  | dot | comma | semicolon | colon
  | assign | plus | minus | star | slash
  | lt | gt | le | ge | eq | ne | and_ | or_ | not_
  | identifier | integer | floatLit | stringLit | charLit
  | eof
  deriving DecidableEq, Repr

/-- The `.value` string of each `TokenType` enum member. -/
def tokTypeValue : TokType → String
  | .use => "use" | .main => "main" | .int => "int" | .float => "float"
  | .bool => "bool" | .char => "char" | .stringType => "string" | .void => "void"
  | .if_ => "if" | .else_ => "else" | .while_ => "while" | .for_ => "for"
  | .return_ => "return" | .function => "function"
  | .true_ => "true" | .false_ => "false"
  | .lparen => "(" | .rparen => ")" | .lbrace => "\x7b" | .rbrace => "\x7d"
  | .lbracket => "[" | .rbracket => "]"
  | .dot => "." | .comma => "," | .semicolon => ";" | .colon => ":"
  | .assign => "=" | .plus => "+" | .minus => "-" | .star => "*" | .slash => "/"
  | .lt => "<" | .gt => ">" | .le => "<=" | .ge => ">=" | .eq => "==" | .ne => "!="
  | .and_ => "and" | .or_ => "or" | .not_ => "not"
  | .identifier => "IDENTIFIER" | .integer => "INTEGER"
  | .floatLit => "FLOAT_LITERAL" | .stringLit => "STRING_LITERAL"
  | .charLit => "CHAR_LITERAL" | .eof => "EOF"

/-- A token (`tokens.py`, class `Token`), without the line/column fields. -/
structure Token where
  type : TokType
  lexeme : String
  deriving DecidableEq, Repr

/-! ## lexer.py -/

/-- One constructor per `raise self._error(...)` site in `lexer.py`. -/
inductive LexFault where
  | bareBang
  | badChar (c : Char)
  | unterminatedString
  | unterminatedChar
  | unknownEscape (c : Char)
  | charEndQuote
  | charNewline
  | charExactlyOne
  deriving DecidableEq, Repr

/-- A lexer failure: a Python `SyntaxError` raised through `Lexer._error`, an
unhandled Python `IndexError` from `_advance` past the end of the source, or
the fuel artifact of `tokenizeFuel` (never reached at adequate fuel). -/
inductive LexErr where
  | fault (f : LexFault)
  | indexErr
  | outOfFuel
  deriving DecidableEq, Repr

/-- The `KEYWORDS` table of `lexer.py`. -/
def keywords : String → Option TokType
  | "use" => some .use
  | "main" => some .main
  | "int" => some .int
  | "float" => some .float
  | "bool" => some .bool
  | "char" => some .char
  | "string" => some .stringType
  | "void" => some .void
  | "if" => some .if_
  | "else" => some .else_
  | "while" => some .while_
  | "for" => some .for_
  | "return" => some .return_
  | "function" => some .function
  | "and" => some .and_
  | "or" => some .or_
  | "not" => some .not_
  | "true" => some .true_
  | "false" => some .false_
  | _ => none

/-- Embeds `Lexer._string`, entered after the opening quote was consumed:
scan up to the next `"` (or fail on end of input) and return the raw
characters in between — the source performs no escape decoding here —
together with the input after the closing quote. -/
def stringBody : List Char → Except LexErr (List Char × List Char)
  | [] => .error (.fault .unterminatedString)
  | c :: rest =>
      if c = '"' then .ok ([], rest)
      else
        match stringBody rest with
        | .ok (content, rest2) => .ok (c :: content, rest2)
        | .error e => .error e

/-- The escape sequences `Lexer._char` recognizes (note: no `\e`, unlike what
the specification lists for string literals). -/
def decodeCharEscape : Char → Option Char
  | 'n' => some '\n'
  | 't' => some '\t'
  | 'r' => some '\r'
  | '\\' => some '\\'
  | '\'' => some '\''
  | '"' => some '"'
  | _ => none

/-- Embeds `Lexer._char`, entered after the opening quote was consumed.
Returns the decoded character and the input after the closing quote.  When
the source ends directly after a backslash, Python's `self._advance()`
indexes past the end of the source: `indexErr`. -/
def charBody : List Char → Except LexErr (Char × List Char)
  | [] => .error (.fault .unterminatedChar)
  | c :: rest =>
      if c = '\\' then
        match rest with
        | [] => .error .indexErr
        | e :: rest2 =>
            match decodeCharEscape e with
            | none => .error (.fault (.unknownEscape e))
            | some ch =>
                match rest2 with
                | [] => .error (.fault .charEndQuote)
                | q :: rest3 =>
                    if q = '\'' then .ok (ch, rest3)
                    else .error (.fault .charEndQuote)
      else if c = '\n' then .error (.fault .charNewline)
      else
        match rest with
        | [] => .error (.fault .charExactlyOne)
        | q :: rest2 =>
            if q = '\'' then .ok (c, rest2)
            else .error (.fault .charExactlyOne)

/-- The digit-run loops of `Lexer._number` (`while self._peek().isdigit()`). -/
def digitsRun : List Char → List Char × List Char
  | [] => ([], [])
  | c :: rest =>
      if c.isDigit then
        let (ds, rest2) := digitsRun rest
        (c :: ds, rest2)
      else ([], c :: rest)

/-- Embeds `Lexer._number`; `c` is the already consumed first digit.  A `.`
is consumed only when the character after it is again a digit
(`_peek_next`); otherwise the token is an integer and the `.` is left. -/
def numberBody (c : Char) (rest : List Char) : Token × List Char :=
  let (ds, rest1) := digitsRun rest
  match rest1 with
  | '.' :: d :: rest2 =>
      if d.isDigit then
        let (ds2, rest3) := digitsRun (d :: rest2)
        (⟨.floatLit, String.mk (c :: ds ++ '.' :: ds2)⟩, rest3)
      else (⟨.integer, String.mk (c :: ds)⟩, rest1)
  | _ => (⟨.integer, String.mk (c :: ds)⟩, rest1)

/-- The identifier-run loop of `Lexer._identifier`. -/
def identRun : List Char → List Char × List Char
  | [] => ([], [])
  | c :: rest =>
      if c.isAlphanum ∨ c = '_' then
        let (cs, rest2) := identRun rest
        (c :: cs, rest2)
      else ([], c :: rest)

/-- Embeds `Lexer._identifier`; `c` is the already consumed first character.
The scanned text is looked up in `keywords`; the lexeme is the raw text
either way. -/
def identBody (c : Char) (rest : List Char) : Token × List Char :=
  let (cs, rest2) := identRun rest
  let text := String.mk (c :: cs)
  match keywords text with
  | some k => (⟨k, text⟩, rest2)
  | none => (⟨.identifier, text⟩, rest2)

/-- The `//`-comment loop of `Lexer._scan_token`: consume up to, but not
including, the next newline. -/
def skipComment : List Char → List Char
  | [] => []
  | c :: rest => if c = '\n' then c :: rest else skipComment rest

/-- Embeds `Lexer._scan_token`; `c` is the character `_advance` just
consumed.  Produces the emitted token, if any, and the remaining input. -/
def scanToken (c : Char) (rest : List Char) : Except LexErr (Option Token × List Char) :=
  if c = ' ' ∨ c = '\r' ∨ c = '\t' then .ok (none, rest)
  else if c = '\n' then .ok (none, rest)
  else if c = '(' then .ok (some ⟨.lparen, "("⟩, rest)
  else if c = ')' then .ok (some ⟨.rparen, ")"⟩, rest)
  else if c = '\x7b' then .ok (some ⟨.lbrace, "\x7b"⟩, rest)
  else if c = '\x7d' then .ok (some ⟨.rbrace, "\x7d"⟩, rest)
  else if c = '[' then .ok (some ⟨.lbracket, "["⟩, rest)
  else if c = ']' then .ok (some ⟨.rbracket, "]"⟩, rest)
  else if c = ',' then .ok (some ⟨.comma, ","⟩, rest)
  else if c = ';' then .ok (some ⟨.semicolon, ";"⟩, rest)
  else if c = '.' then .ok (some ⟨.dot, "."⟩, rest)
  else if c = '-' then .ok (some ⟨.minus, "-"⟩, rest)
  else if c = '+' then .ok (some ⟨.plus, "+"⟩, rest)
  else if c = '*' then .ok (some ⟨.star, "*"⟩, rest)
  else if c = '/' then
    match rest with
    | '/' :: rest2 => .ok (none, skipComment rest2)
    | _ => .ok (some ⟨.slash, "/"⟩, rest)
  else if c = '=' then
    match rest with
    | '=' :: rest2 => .ok (some ⟨.eq, "=="⟩, rest2)
    | _ => .ok (some ⟨.assign, "="⟩, rest)
  else if c = '!' then
    match rest with
    | '=' :: rest2 => .ok (some ⟨.ne, "!="⟩, rest2)
    | _ => .error (.fault .bareBang)
  else if c = '<' then
    match rest with
    | '=' :: rest2 => .ok (some ⟨.le, "<="⟩, rest2)
    | _ => .ok (some ⟨.lt, "<"⟩, rest)
  else if c = '>' then
    match rest with
    | '=' :: rest2 => .ok (some ⟨.ge, ">="⟩, rest2)
    | _ => .ok (some ⟨.gt, ">"⟩, rest)
  else if c = '"' then
    match stringBody rest with
    | .ok (content, rest2) => .ok (some ⟨.stringLit, String.mk content⟩, rest2)
    | .error e => .error e
  else if c = '\'' then
    match charBody rest with
    | .ok (ch, rest2) => .ok (some ⟨.charLit, String.mk [ch]⟩, rest2)
    | .error e => .error e
  else if c.isDigit then
    let (t, rest2) := numberBody c rest
    .ok (some t, rest2)
  else if c.isAlpha ∨ c = '_' then
    let (t, rest2) := identBody c rest
    .ok (some t, rest2)
  else .error (.fault (.badChar c))

/-- The `tokenize` loop, fueled; every `scanToken` consumes at least the one
character `c`, so fuel `source.length + 1` (see `tokenize`) never runs out.
The final `EOF` token is appended as in the source. -/
def tokenizeFuel : Nat → List Char → Except LexErr (List Token)
  | _, [] => .ok [⟨.eof, ""⟩]
  | 0, _ :: _ => .error .outOfFuel
  | fuel + 1, c :: rest =>
      match scanToken c rest with
      | .error e => .error e
      | .ok (tok, rest2) =>
          match tokenizeFuel fuel rest2 with
          | .error e => .error e
          | .ok ts =>
              match tok with
              | some t => .ok (t :: ts)
              | none => .ok ts

/-- Embeds `Lexer.tokenize` on a source given as a character list. -/
def tokenize (source : List Char) : Except LexErr (List Token) :=
  tokenizeFuel (source.length + 1) source

/-! ## iast.py -/

/-- The dynamic (Python) value stored in a `Literal` node.  Character and
string literals are both Python `str`, so both map to `pystr`; the analyzer
distinguishes them by length exactly as the source does. -/
inductive LitVal where
  | pybool (b : Bool)
  | pyint (n : Int)
  | pyfloat (text : String)
  | pystr (s : String)
  deriving DecidableEq, Repr

/-- Expression nodes of `iast.py` (`Variable` is `var` here). -/
inductive Expr where
  | literal (value : LitVal)
  | var (name : String)
  | assign (name : String) (value : Expr)
  | binary (left : Expr) (op : String) (right : Expr)
  | unary (op : String) (right : Expr)
  | call (callee : Expr) (arguments : List Expr)
  | get (object : Expr) (name : String)

/-- Statement nodes of `iast.py`. -/
inductive Stmt where
  | varDecl (type_name name : String) (initializer : Expr)
  | exprStmt (e : Expr)
  | block (statements : List Stmt)
  | ifStmt (condition : Expr) (then_branch : Stmt) (else_branch : Option Stmt)
  | whileStmt (condition : Expr) (body : Stmt)
  | returnStmt (value : Option Expr)

/-- `iast.Param`. -/
structure Param where
  type_name : String
  name : String
  deriving DecidableEq, Repr

/-- `iast.FunctionDecl`; its `body` holds the statement list of the function's
`Block`. -/
structure FunctionDecl where
  name : String
  return_type : String
  params : List Param
  body : List Stmt

/-- `iast.UseDecl`. -/
structure UseDecl where
  module_name : String
  deriving DecidableEq, Repr

/-- `iast.Program`: as defined in `src/iast.py` it has the imports and the
main function only (no global-function list). -/
structure Program where
  imports : List UseDecl
  main_func : FunctionDecl

/-! ## parser.py -/

/-- One constructor per `raise self._error(...)` site in `parser.py`.  Both
unknown-type sites (in `_consume_type` and the typo heuristic of
`_declaration`) produce the same message shape and share `unknownType`. -/
inductive PFault where
  | expected (t : TokType) (found : Token)
  | expectedEof (found : Token)
  | unknownType (name : String) (suggestion : Option String)
  | expectedTypeName (found : Token)
  | noDefault (type_lexeme : String)
  | assignTarget
  | expectedExpression (found : Token)
  deriving DecidableEq, Repr

/-- A parser failure: a Python `SyntaxError`, the unhandled Python
`NameError` of `_parse_var_decl` (local `type_name` referenced before
assignment), an out-of-bounds token index, or exhausted fuel (an artifact;
any large enough fuel never hits it). -/
inductive PErr where
  | fault (f : PFault)
  | nameErr
  | indexErr
  | outOfFuel
  deriving DecidableEq, Repr

/-- Embeds `Parser._advance`.  Python's `_advance` at the EOF token would
return the previous token without moving, but every call site in the source
is guarded by a successful `_check`/`_match`, so only the consuming case is
modelled; an empty token list is an index crash (`_peek` out of range). -/
def advanceT : List Token → Except PErr (Token × List Token)
  | [] => .error .indexErr
  | t :: rest => .ok (t, rest)

/-- Embeds `Parser._consume`: `_check` fails at EOF (from `_is_at_end`) or on
a kind mismatch, raising the "expected X, found Y" error. -/
def consume (t : TokType) : List Token → Except PErr (Token × List Token)
  | [] => .error .indexErr
  | tok :: rest =>
      if tok.type = .eof then .error (.fault (.expected t tok))
      else if tok.type = t then .ok (tok, rest)
      else .error (.fault (.expected t tok))

/-- Embeds `Parser._match` for a single kind: consume and return the token on
a match, otherwise leave the input unchanged. -/
def matchT (t : TokType) : List Token → Except PErr (Option (Token × List Token))
  | [] => .error .indexErr
  | tok :: rest =>
      if tok.type ≠ .eof ∧ tok.type = t then .ok (some (tok, rest)) else .ok none

/-- Embeds `Parser._match` over several kinds. -/
def matchAny (ts : List TokType) : List Token → Except PErr (Option (Token × List Token))
  | [] => .error .indexErr
  | tok :: rest =>
      if tok.type ≠ .eof ∧ ts.contains tok.type then .ok (some (tok, rest)) else .ok none

/-- Embeds `Parser._check` for a single kind. -/
def checkT (t : TokType) : List Token → Except PErr Bool
  | [] => .error .indexErr
  | tok :: _ => .ok (tok.type ≠ .eof ∧ tok.type = t : Bool)

/-- The dynamic-programming `levenshtein` nested in `Parser._closest_match`,
after its argument swap (rows over `a`, columns over `b`). -/
def levenshteinCore (a b : List Char) : Nat :=
  if b.length = 0 then a.length
  else
    let firstRow := List.range (b.length + 1)
    let lastRow := a.enum.foldl
      (fun prev (p : Nat × Char) =>
        b.enum.foldl
          (fun curr (q : Nat × Char) =>
            let insertions := prev.getD (q.1 + 1) 0 + 1
            let deletions := curr.getLastD 0 + 1
            let substitutions := prev.getD q.1 0 + (if p.2 = q.2 then 0 else 1)
            curr ++ [min insertions (min deletions substitutions)])
          [p.1 + 1])
      firstRow
    lastRow.getLastD 0

/-- `levenshtein` with the initial swap `if len(a) < len(b): swap`. -/
def levenshtein (a b : List Char) : Nat :=
  if a.length < b.length then levenshteinCore b a else levenshteinCore a b

/-- Embeds `Parser._closest_match`: the candidate at distance strictly below
3 (case-folded), keeping the first of equally good candidates. -/
def closestMatch (word : String) (candidates : List String) : Option String :=
  (candidates.foldl
    (fun (acc : Option String × Nat) cand =>
      let dist := levenshtein word.toLower.data cand.toLower.data
      if dist < acc.2 then (some cand, dist) else acc)
    (none, 3)).1

/-- The fixed type vocabulary used for typo suggestions. -/
def knownTypes : List String := ["int", "float", "bool", "char", "string", "void"]

/-- Python `int()` applied to a scanned digit run (the lexer only ever emits
INTEGER lexemes consisting of decimal digits). -/
def digitsToNat (cs : List Char) : Nat :=
  cs.foldl (fun n c => n * 10 + (c.toNat - '0'.toNat)) 0

/-- Embeds `Parser._next_token_is_identifier_or_semicolon`: it inspects the
token after the current one, which in the consuming representation is the
second element of the remaining list. -/
def nextIsIdentOrSemi (rest : List Token) : Bool :=
  match rest with
  | next :: _ => next.type = .identifier ∨ next.type = .semicolon
  | [] => false

/-- The `default_values` table of `Parser._parse_var_decl`, keyed by the type
name (`void` has no entry). -/
def defaultValue : String → Option Expr
  | "int" => some (.literal (.pyint 0))
  | "float" => some (.literal (.pyfloat "0.0"))
  | "bool" => some (.literal (.pybool false))
  | "char" => some (.literal (.pystr "\x00"))
  | "string" => some (.literal (.pystr ""))
  | _ => none

mutual

/-- Embeds `Parser._expression`. -/
def exprF : Nat → List Token → Except PErr (Expr × List Token)
  | 0, _ => .error .outOfFuel
  | fuel + 1, rem => assignmentF fuel rem

/-- Embeds `Parser._assignment` (right associative; the target must be a
bare `Variable`). -/
def assignmentF : Nat → List Token → Except PErr (Expr × List Token)
  | 0, _ => .error .outOfFuel
  | fuel + 1, rem => do
      let (e, rem1) ← logicalOrF fuel rem
      match ← matchT .assign rem1 with
      | some (_, rem2) =>
          match e with
          | .var n => do
              let (value, rem3) ← assignmentF fuel rem2
              .ok (.assign n value, rem3)
          | _ => .error (.fault .assignTarget)
      | none => .ok (e, rem1)

/-- Embeds `Parser._logical_or`. -/
def logicalOrF : Nat → List Token → Except PErr (Expr × List Token)
  | 0, _ => .error .outOfFuel
  | fuel + 1, rem => do
      let (e, rem1) ← logicalAndF fuel rem
      orLoop fuel e rem1

/-- The `while self._match(OR)` loop of `_logical_or`. -/
def orLoop : Nat → Expr → List Token → Except PErr (Expr × List Token)
  | 0, _, _ => .error .outOfFuel
  | fuel + 1, e, rem => do
      match ← matchT .or_ rem with
      | some (_, rem1) => do
          let (right, rem2) ← logicalAndF fuel rem1
          orLoop fuel (.binary e "or" right) rem2
      | none => .ok (e, rem)

/-- Embeds `Parser._logical_and`. -/
def logicalAndF : Nat → List Token → Except PErr (Expr × List Token)
  | 0, _ => .error .outOfFuel
  | fuel + 1, rem => do
      let (e, rem1) ← equalityF fuel rem
      andLoop fuel e rem1

/-- The `while self._match(AND)` loop of `_logical_and`. -/
def andLoop : Nat → Expr → List Token → Except PErr (Expr × List Token)
  | 0, _, _ => .error .outOfFuel
  | fuel + 1, e, rem => do
      match ← matchT .and_ rem with
      | some (_, rem1) => do
          let (right, rem2) ← equalityF fuel rem1
          andLoop fuel (.binary e "and" right) rem2
      | none => .ok (e, rem)

/-- Embeds `Parser._equality`. -/
def equalityF : Nat → List Token → Except PErr (Expr × List Token)
  | 0, _ => .error .outOfFuel
  | fuel + 1, rem => do
      let (e, rem1) ← comparisonF fuel rem
      eqLoop fuel e rem1

/-- The `while self._match(EQ, NE)` loop of `_equality`. -/
def eqLoop : Nat → Expr → List Token → Except PErr (Expr × List Token)
  | 0, _, _ => .error .outOfFuel
  | fuel + 1, e, rem => do
      match ← matchAny [.eq, .ne] rem with
      | some (opTok, rem1) => do
          let op := if opTok.type = .eq then "==" else "!="
          let (right, rem2) ← comparisonF fuel rem1
          eqLoop fuel (.binary e op right) rem2
      | none => .ok (e, rem)

/-- Embeds `Parser._comparison`. -/
def comparisonF : Nat → List Token → Except PErr (Expr × List Token)
  | 0, _ => .error .outOfFuel
  | fuel + 1, rem => do
      let (e, rem1) ← termF fuel rem
      cmpLoop fuel e rem1

/-- The `while self._match(LT, LE, GT, GE)` loop of `_comparison`. -/
def cmpLoop : Nat → Expr → List Token → Except PErr (Expr × List Token)
  | 0, _, _ => .error .outOfFuel
  | fuel + 1, e, rem => do
      match ← matchAny [.lt, .le, .gt, .ge] rem with
      | some (opTok, rem1) => do
          let op :=
            if opTok.type = .lt then "<"
            else if opTok.type = .le then "<="
            else if opTok.type = .gt then ">"
            else ">="
          let (right, rem2) ← termF fuel rem1
          cmpLoop fuel (.binary e op right) rem2
      | none => .ok (e, rem)

/-- Embeds `Parser._term`. -/
def termF : Nat → List Token → Except PErr (Expr × List Token)
  | 0, _ => .error .outOfFuel
  | fuel + 1, rem => do
      let (e, rem1) ← factorF fuel rem
      termLoop fuel e rem1

/-- The `while self._match(PLUS, MINUS)` loop of `_term`. -/
def termLoop : Nat → Expr → List Token → Except PErr (Expr × List Token)
  | 0, _, _ => .error .outOfFuel
  | fuel + 1, e, rem => do
      match ← matchAny [.plus, .minus] rem with
      | some (opTok, rem1) => do
          let op := if opTok.type = .plus then "+" else "-"
          let (right, rem2) ← factorF fuel rem1
          termLoop fuel (.binary e op right) rem2
      | none => .ok (e, rem)

/-- Embeds `Parser._factor`. -/
def factorF : Nat → List Token → Except PErr (Expr × List Token)
  | 0, _ => .error .outOfFuel
  | fuel + 1, rem => do
      let (e, rem1) ← unaryF fuel rem
      factorLoop fuel e rem1

/-- The `while self._match(STAR, SLASH)` loop of `_factor`. -/
def factorLoop : Nat → Expr → List Token → Except PErr (Expr × List Token)
  | 0, _, _ => .error .outOfFuel
  | fuel + 1, e, rem => do
      match ← matchAny [.star, .slash] rem with
      | some (opTok, rem1) => do
          let op := if opTok.type = .star then "*" else "/"
          let (right, rem2) ← unaryF fuel rem1
          factorLoop fuel (.binary e op right) rem2
      | none => .ok (e, rem)

/-- Embeds `Parser._unary`: unary minus is de-sugared at parse time into
`Binary(Literal(0), "-", operand)`; `not` stays a `Unary` node. -/
def unaryF : Nat → List Token → Except PErr (Expr × List Token)
  | 0, _ => .error .outOfFuel
  | fuel + 1, rem => do
      match ← matchAny [.not_, .minus] rem with
      | some (opTok, rem1) => do
          let (right, rem2) ← unaryF fuel rem1
          if opTok.type = .minus then
            .ok (.binary (.literal (.pyint 0)) "-" right, rem2)
          else .ok (.unary "not" right, rem2)
      | none => callF fuel rem

/-- Embeds `Parser._call`. -/
def callF : Nat → List Token → Except PErr (Expr × List Token)
  | 0, _ => .error .outOfFuel
  | fuel + 1, rem => do
      let (e, rem1) ← primaryF fuel rem
      callLoop fuel e rem1

/-- The postfix-chain loop of `_call`: `(...)` invocations and `.name`
accesses, folded left to right. -/
def callLoop : Nat → Expr → List Token → Except PErr (Expr × List Token)
  | 0, _, _ => .error .outOfFuel
  | fuel + 1, e, rem => do
      match ← matchT .lparen rem with
      | some (_, rem1) => do
          let (args, rem2) ← argsF fuel rem1
          let (_, rem3) ← consume .rparen rem2
          callLoop fuel (.call e args) rem3
      | none =>
          match ← matchT .dot rem with
          | some (_, rem1) => do
              let (nameTok, rem2) ← consume .identifier rem1
              callLoop fuel (.get e nameTok.lexeme) rem2
          | none => .ok (e, rem)

/-- The argument list of a call, up to (not including) the `)`. -/
def argsF : Nat → List Token → Except PErr (List Expr × List Token)
  | 0, _ => .error .outOfFuel
  | fuel + 1, rem => do
      if (← checkT .rparen rem) then .ok ([], rem)
      else do
        let (a, rem1) ← exprF fuel rem
        argsLoop fuel [a] rem1

/-- The `while self._match(COMMA)` loop of the argument list. -/
def argsLoop : Nat → List Expr → List Token → Except PErr (List Expr × List Token)
  | 0, _, _ => .error .outOfFuel
  | fuel + 1, acc, rem => do
      match ← matchT .comma rem with
      | some (_, rem1) => do
          let (a, rem2) ← exprF fuel rem1
          argsLoop fuel (acc ++ [a]) rem2
      | none => .ok (acc, rem)

/-- Embeds `Parser._primary`. -/
def primaryF : Nat → List Token → Except PErr (Expr × List Token)
  | 0, _ => .error .outOfFuel
  | fuel + 1, rem => do
      match ← matchT .integer rem with
      | some (tok, rem1) => .ok (.literal (.pyint (digitsToNat tok.lexeme.data : Nat)), rem1)
      | none =>
      match ← matchT .floatLit rem with
      | some (tok, rem1) => .ok (.literal (.pyfloat tok.lexeme), rem1)
      | none =>
      match ← matchT .stringLit rem with
      | some (tok, rem1) => .ok (.literal (.pystr tok.lexeme), rem1)
      | none =>
      match ← matchT .charLit rem with
      | some (tok, rem1) => .ok (.literal (.pystr tok.lexeme), rem1)
      | none =>
      match ← matchT .true_ rem with
      | some (_, rem1) => .ok (.literal (.pybool true), rem1)
      | none =>
      match ← matchT .false_ rem with
      | some (_, rem1) => .ok (.literal (.pybool false), rem1)
      | none =>
      match ← matchT .identifier rem with
      | some (tok, rem1) => .ok (.var tok.lexeme, rem1)
      | none =>
      match ← matchT .lparen rem with
      | some (_, rem1) => do
          let (e, rem2) ← exprF fuel rem1
          let (_, rem3) ← consume .rparen rem2
          .ok (e, rem3)
      | none =>
          match rem with
          | [] => .error .indexErr
          | tok :: _ => .error (.fault (.expectedExpression tok))

/-- Embeds `Parser._parse_var_decl`.  On the initializer branch the Python
local `type_name` is never assigned, so the final `return VarDecl(type_name,
…)` raises `NameError` — after the initializer expression and the closing
`;` were already consumed. -/
def varDeclF : Nat → List Token → Except PErr (Stmt × List Token)
  | 0, _ => .error .outOfFuel
  | fuel + 1, rem => do
      let (type_token, rem1) ← advanceT rem
      let (nameTok, rem2) ← consume .identifier rem1
      match ← matchT .assign rem2 with
      | some (_, rem3) => do
          let (_initializer, rem4) ← exprF fuel rem3
          let (_, _rem5) ← consume .semicolon rem4
          .error .nameErr
      | none => do
          let type_name := tokTypeValue type_token.type
          match defaultValue type_name with
          | none => .error (.fault (.noDefault type_token.lexeme))
          | some initializer => do
              let (_, rem5) ← consume .semicolon rem2
              .ok (.varDecl type_name nameTok.lexeme initializer, rem5)

/-- Embeds `Parser._declaration`: a leading type keyword starts a variable
declaration; an identifier followed by an identifier or `;` triggers the
unknown-type typo diagnostic; anything else is a statement. -/
def declarationF : Nat → List Token → Except PErr (Stmt × List Token)
  | 0, _ => .error .outOfFuel
  | fuel + 1, rem =>
      match rem with
      | [] => .error .indexErr
      | tok :: rest =>
          if tok.type = .int ∨ tok.type = .float ∨ tok.type = .bool ∨
              tok.type = .char ∨ tok.type = .stringType ∨ tok.type = .void then
            varDeclF fuel (tok :: rest)
          else if tok.type = .identifier ∧ nextIsIdentOrSemi rest = true then
            .error (.fault (.unknownType tok.lexeme (closestMatch tok.lexeme knownTypes)))
          else statementF fuel (tok :: rest)

/-- Embeds `Parser._statement`. -/
def statementF : Nat → List Token → Except PErr (Stmt × List Token)
  | 0, _ => .error .outOfFuel
  | fuel + 1, rem => do
      match ← matchT .if_ rem with
      | some (_, rem1) => do
          let (_, rem2) ← consume .lparen rem1
          let (condition, rem3) ← exprF fuel rem2
          let (_, rem4) ← consume .rparen rem3
          let (thenB, rem5) ← statementF fuel rem4
          match ← matchT .else_ rem5 with
          | some (_, rem6) => do
              let (elseB, rem7) ← statementF fuel rem6
              .ok (.ifStmt condition thenB (some elseB), rem7)
          | none => .ok (.ifStmt condition thenB none, rem5)
      | none =>
      match ← matchT .while_ rem with
      | some (_, rem1) => do
          let (_, rem2) ← consume .lparen rem1
          let (condition, rem3) ← exprF fuel rem2
          let (_, rem4) ← consume .rparen rem3
          let (body, rem5) ← statementF fuel rem4
          .ok (.whileStmt condition body, rem5)
      | none =>
      match ← matchT .return_ rem with
      | some (_, rem1) => do
          if (← checkT .semicolon rem1) then do
            let (_, rem2) ← consume .semicolon rem1
            .ok (.returnStmt none, rem2)
          else do
            let (v, rem2) ← exprF fuel rem1
            let (_, rem3) ← consume .semicolon rem2
            .ok (.returnStmt (some v), rem3)
      | none => do
          if (← checkT .lbrace rem) then do
            let (stmts, rem1) ← blockF fuel rem
            .ok (.block stmts, rem1)
          else do
            let (e, rem1) ← exprF fuel rem
            let (_, rem2) ← consume .semicolon rem1
            .ok (.exprStmt e, rem2)

/-- Embeds `Parser._block`; yields the statement list of the block. -/
def blockF : Nat → List Token → Except PErr (List Stmt × List Token)
  | 0, _ => .error .outOfFuel
  | fuel + 1, rem => do
      let (_, rem1) ← consume .lbrace rem
      let (stmts, rem2) ← blockItems fuel rem1
      let (_, rem3) ← consume .rbrace rem2
      .ok (stmts, rem3)

/-- The `while not check(RBRACE) and not at_end` loop of `_block`. -/
def blockItems : Nat → List Token → Except PErr (List Stmt × List Token)
  | 0, _ => .error .outOfFuel
  | fuel + 1, rem =>
      match rem with
      | [] => .error .indexErr
      | tok :: _ =>
          if tok.type = .rbrace ∨ tok.type = .eof then .ok ([], rem)
          else do
            let (s, rem1) ← declarationF fuel rem
            let (ss, rem2) ← blockItems fuel rem1
            .ok (s :: ss, rem2)

end

/-- Embeds `Parser._consume_type` (reachable only from the non-main branch of
`_function_decl`, which `parse` never takes). -/
def consumeType : List Token → Except PErr (String × List Token)
  | [] => .error .indexErr
  | tok :: rest =>
      if tok.type = .void then .ok ("void", rest)
      else if tok.type = .int then .ok ("int", rest)
      else if tok.type = .float then .ok ("float", rest)
      else if tok.type = .bool then .ok ("bool", rest)
      else if tok.type = .char then .ok ("char", rest)
      else if tok.type = .stringType then .ok ("string", rest)
      else if tok.type = .identifier then
        .error (.fault (.unknownType tok.lexeme (closestMatch tok.lexeme knownTypes)))
      else .error (.fault (.expectedTypeName tok))

/-- Embeds `Parser._function_decl`.  The main branch parses exactly
`main ( ) { … }` and builds `FunctionDecl("main", "void", [], body)`; the
non-main branch (`<type> function <name> ( ) { … }`, unreachable from
`parse`) accepts an empty parameter list only ("пока без параметров"). -/
def functionDeclF (fuel : Nat) (is_main : Bool) (rem : List Token) :
    Except PErr (FunctionDecl × List Token) :=
  if is_main then do
    let (_, r1) ← consume .main rem
    let (_, r2) ← consume .lparen r1
    let (_, r3) ← consume .rparen r2
    let (body, r4) ← blockF fuel r3
    .ok (⟨"main", "void", [], body⟩, r4)
  else do
    let (ret_type, r1) ← consumeType rem
    let (_, r2) ← consume .function r1
    let (nameTok, r3) ← consume .identifier r2
    let (_, r4) ← consume .lparen r3
    let (_, r5) ← consume .rparen r4
    let (body, r6) ← blockF fuel r5
    .ok (⟨nameTok.lexeme, ret_type, [], body⟩, r6)

/-- The `while self._check(USE)` import loop at the head of `Parser.parse`;
`_consume`'s behavior on the identifier and semicolon is inlined so the
recursion is structural. -/
def parseUses : List Token → Except PErr (List UseDecl × List Token)
  | [] => .error .indexErr
  | tok :: rest =>
      if tok.type = .use then
        match rest with
        | [] => .error .indexErr
        | t2 :: rest2 =>
            if t2.type = .identifier then
              match rest2 with
              | [] => .error .indexErr
              | t3 :: rest3 =>
                  if t3.type = .semicolon then
                    match parseUses rest3 with
                    | .ok (uses, remOut) => .ok (⟨t2.lexeme⟩ :: uses, remOut)
                    | .error e => .error e
                  else .error (.fault (.expected .semicolon t3))
            else .error (.fault (.expected .identifier t2))
      else .ok ([], tok :: rest)

/-- Embeds `Parser.parse`: `use` imports, then directly the one `main()`
function (there is no global-function phase in `src/parser.py`), then the
end-of-input check. -/
def parse (fuel : Nat) (tokens : List Token) : Except PErr Program := do
  let (imports, r1) ← parseUses tokens
  let (main_func, r2) ← functionDeclF fuel true r1
  match r2 with
  | [] => .error .indexErr
  | tok :: _ =>
      if tok.type = .eof then .ok ⟨imports, main_func⟩
      else .error (.fault (.expectedEof tok))

/-! ## analyzer.py -/

/-- One constructor per `SemanticError` construction site in `analyzer.py`.
The variable-declaration and assignment incompatibility sites format the
same message and share `incompatible`. -/
inductive SemErr where
  | reservedName (name : String)
  | alreadyDeclared (name : String)
  | notDeclared (name : String)
  | incompatible (value_type target_type : String)
  | arithOperands
  | unaryMinusOperand
  | notOperand
  | getIntArity
  | getFloatArity
  | getStringArity
  | unknownModule (module : String)
  | convArity (func : String)
  | unknownFunction (name : String)
  | unknownMethod (module func : String)
  | unknownCallGet
  | invalidCall
  deriving DecidableEq, Repr

/-- The `SemanticAnalyzer`'s mutable state: `self.modules` (recorded by
`analyze` and never read afterwards), `self.variables` (an insertion-ordered
name → declared-type table standing for the `VarInfo` dict) and
`self.errors`. -/
structure AState where
  modules : List String
  vars : List (String × String)
  errors : List SemErr
  deriving DecidableEq, Repr

/-- `self.errors.append(e)`. -/
def pushErr (st : AState) (e : SemErr) : AState :=
  { st with errors := st.errors ++ [e] }

/-- Dictionary lookup in `self.variables`. -/
def lookupVar (st : AState) (n : String) : Option String :=
  st.vars.lookup n

/-- Embeds `SemanticAnalyzer._literal_type` (the `bool` test precedes the
`int` test as in the source; a one-character string is a `char`). -/
def literalType : LitVal → String
  | .pybool _ => "bool"
  | .pyint _ => "int"
  | .pyfloat _ => "float"
  | .pystr s => if s.length = 1 then "char" else "string"

/-- Embeds `SemanticAnalyzer._is_compatible`. -/
def isCompatible (expected actual : String) : Bool :=
  if expected = actual then true
  else if expected = "float" ∧ actual = "int" then true
  else false

/-- The membership test `t in ("int", "float")` applied to an optional
inferred type (`None` is not numeric, as in Python). -/
def isNumericT : Option String → Bool
  | some "int" => true
  | some "float" => true
  | _ => false

/-- The operator set `{"+", "-", "*", "/"}`. -/
def arithOps : List String := ["+", "-", "*", "/"]

/-- The operator set `{"==", "!=", "<", "<=", ">", ">="}`. -/
def cmpOps : List String := ["==", "!=", "<", "<=", ">", ">="]

/-- The reserved names `visit_var_decl` rejects as variable names. -/
def reservedVarNames : List String :=
  ["main", "use", "if", "else", "while", "return", "console"]

/-- The `return_type_map` of the `to_string`/`to_int`/`to_float` branch. -/
def convReturn : String → String
  | "to_string" => "string"
  | "to_int" => "int"
  | _ => "float"

mutual

/-- Embeds `SemanticAnalyzer.visit_expr`: thread the analyzer state through
and produce the inferred type (`none` where Python returns `None`).

The `call` arm transcribes `SemanticAnalyzer._check_call` in place (keeping
the dispatch inside `visitExpr` lets the mutual recursion stay structural):
dispatch on the callee's shape; an unknown `console` method falls through
the `module == "console"` block of the source to its trailing
unknown-callee diagnostics, which land in the `Get(Variable m, f)` arm, so
that net effect is written directly in the fall-through position. -/
def visitExpr (st : AState) : Expr → AState × Option String
  | .literal v => (st, some (literalType v))
  | .var n =>
      match lookupVar st n with
      | none => (pushErr st (.notDeclared n), none)
      | some t => (st, some t)
  | .assign n value =>
      match lookupVar st n with
      | none => (pushErr st (.notDeclared n), none)
      | some target_type =>
          let p := visitExpr st value
          match p.2 with
          | some vt =>
              if isCompatible target_type vt then (p.1, some target_type)
              else (pushErr p.1 (.incompatible vt target_type), some target_type)
          | none => (p.1, some target_type)
  | .binary left op right =>
      let pl := visitExpr st left
      let pr := visitExpr pl.1 right
      let st3 :=
        if arithOps.contains op ∧ (isNumericT pl.2 = false ∨ isNumericT pr.2 = false) then
          pushErr pr.1 .arithOperands
        else pr.1
      (st3, if cmpOps.contains op then some "bool" else pl.2)
  | .unary op right =>
      let p := visitExpr st right
      let st2 :=
        if op = "-" ∧ isNumericT p.2 = false then pushErr p.1 .unaryMinusOperand
        else if op = "not" ∧ p.2 ≠ some "bool" then pushErr p.1 .notOperand
        else p.1
      (st2, p.2)
  | .call (.get (.var module_) func_name) args =>
      if module_ = "console" then
        if func_name = "get_int" then
          (if args.length ≠ 0 then pushErr st .getIntArity else st, some "int")
        else if func_name = "get_float" then
          (if args.length ≠ 0 then pushErr st .getFloatArity else st, some "float")
        else if func_name = "get_string" then
          (if args.length ≠ 0 then pushErr st .getStringArity else st, some "string")
        else if func_name = "write" then
          (visitExprList st args, some "void")
        else (pushErr st (.unknownMethod module_ func_name), none)
      else (pushErr st (.unknownModule module_), none)
  | .call (.var func_name) args =>
      if func_name = "to_string" ∨ func_name = "to_int" ∨ func_name = "to_float" then
        match args with
        | [a] => ((visitExpr st a).1, some (convReturn func_name))
        | _ => (pushErr st (.convArity func_name), none)
      else (pushErr st (.unknownFunction func_name), none)
  | .call (.get _ _) _ => (pushErr st .unknownCallGet, none)
  | .call _ _ => (pushErr st .invalidCall, none)
  | .get object name =>
      let p := visitExpr st object
      if p.2 = some "string" ∧ name = "length" then (p.1, some "int")
      else (p.1, none)

/-- The `for arg in call.arguments: self.visit_expr(arg)` loop of the
`console.write` branch. -/
def visitExprList (st : AState) : List Expr → AState
  | [] => st
  | e :: es => visitExprList (visitExpr st e).1 es

end

/-- Embeds `SemanticAnalyzer.visit_var_decl`. -/
def visitVarDecl (st : AState) (type_name name : String) (initializer : Expr) : AState :=
  if reservedVarNames.contains name then pushErr st (.reservedName name)
  else if (lookupVar st name).isSome then pushErr st (.alreadyDeclared name)
  else
    let p := visitExpr st initializer
    match p.2 with
    | none => p.1
    | some init_type =>
        if isCompatible type_name init_type = false then
          pushErr p.1 (.incompatible init_type type_name)
        else { p.1 with vars := p.1.vars ++ [(name, type_name)] }

mutual

/-- Embeds `SemanticAnalyzer.visit_stmt`.  `Block`, `IfStmt` and `WhileStmt`
bodies are visited against the same state: no scope is pushed or popped. -/
def visitStmt (st : AState) : Stmt → AState
  | .varDecl t n init => visitVarDecl st t n init
  | .exprStmt e => (visitExpr st e).1
  | .block stmts => visitStmtList st stmts
  | .ifStmt c t e =>
      let st1 := (visitExpr st c).1
      let st2 := visitStmt st1 t
      match e with
      | some s => visitStmt st2 s
      | none => st2
  | .whileStmt c body => visitStmt (visitExpr st c).1 body
  | .returnStmt v =>
      match v with
      | some e => (visitExpr st e).1
      | none => st

/-- The statement loops of `visit_function` and of the `Block` arm of
`visit_stmt`. -/
def visitStmtList (st : AState) : List Stmt → AState
  | [] => st
  | s :: ss => visitStmtList (visitStmt st s) ss

end

/-- Embeds `SemanticAnalyzer.visit_function`: reset `self.variables` to a
fresh table (errors persist) and visit every statement of the body. -/
def visitFunction (st : AState) (f : FunctionDecl) : AState :=
  visitStmtList { st with vars := [] } f.body

/-- The state after `analyze` recorded the imported module names and visited
`main`. -/
def mainState (program : Program) : AState :=
  visitFunction
    { modules := program.imports.map (·.module_name), vars := [], errors := [] }
    program.main_func

/-- Embeds `SemanticAnalyzer.analyze`: visit everything, then raise the first
accumulated error, if any (the rest are discarded). -/
def analyze (program : Program) : Except SemErr Unit :=
  match (mainState program).errors with
  | [] => .ok ()
  | e :: _ => .error e

/-! ## Supporting definitions for the theorems -/

/-- The token sequence of a `use m1; use m2; …` import prefix. -/
def useTokens : List String → List Token
  | [] => []
  | m :: ms => ⟨.use, "use"⟩ :: ⟨.identifier, m⟩ :: ⟨.semicolon, ";"⟩ :: useTokens ms

/-- One level of statement nesting: a bare block, an `if (true) { … }`
then-branch, or a `while (true)` body. -/
inductive Wrap where
  | inBlock
  | inIf
  | inWhile
  deriving DecidableEq, Repr

/-- Wrap a statement in the given nesting levels, innermost last. -/
def nestStmt : List Wrap → Stmt → Stmt
  | [], s => s
  | .inBlock :: ws, s => .block [nestStmt ws s]
  | .inIf :: ws, s => .ifStmt (.literal (.pybool true)) (.block [nestStmt ws s]) none
  | .inWhile :: ws, s => .whileStmt (.literal (.pybool true)) (.block [nestStmt ws s])

/-! ## Theorems -/

/-- Reduction of a successful `Except` bind (the do-chains below). -/
@[simp] theorem exceptBindOk {ε α β : Type} (a : α) (f : α → Except ε β) :
    (Except.ok a >>= f) = f a := rfl

/-- Propagation of a failed `Except` bind. -/
@[simp] theorem exceptBindError {ε α β : Type} (e : ε) (f : α → Except ε β) :
    ((Except.error e : Except ε α) >>= f) = .error e := rfl

/-- C7: `SemanticAnalyzer._is_compatible` returns true exactly for identical
types or for an expected `float` with an actual `int`; in particular
`("int", "float")`, `("char", "string")` and `("string", "char")` are all
incompatible. -/
theorem c7_is_compatible_spec :
    (∀ expected actual : String,
        isCompatible expected actual = true ↔
          expected = actual ∨ (expected = "float" ∧ actual = "int")) ∧
      isCompatible "int" "float" = false ∧
      isCompatible "char" "string" = false ∧
      isCompatible "string" "char" = false := by
  refine ⟨fun expected actual => ?_, rfl, rfl, rfl⟩
  constructor
  · intro htrue
    by_cases h : expected = actual
    · exact Or.inl h
    · right
      by_cases h2 : expected = "float" ∧ actual = "int"
      · exact h2
      · simp [isCompatible, h, h2] at htrue
  · rintro (rfl | ⟨rfl, rfl⟩) <;> simp [isCompatible]

/-- C7 witness: `_is_compatible("float", "int")` holds, by the
characterization at a concrete input. -/
theorem c7_is_compatible_spec_witness : isCompatible "float" "int" = true :=
  (c7_is_compatible_spec.1 "float" "int").mpr (Or.inr ⟨rfl, rfl⟩)

/-- C4: contrary to the claim, `src/analyzer.py` takes no set of known
user-library names and `_check_call` rejects every module other than
`console`: a call `mathlib.square(4)` — even with `mathlib` imported via
`use`, hence recorded in `self.modules` — appends an unknown-module error
and yields no type instead of type-checking the arguments and returning
`void`. -/
theorem c4_user_library_call_rejected :
    visitExpr ⟨["mathlib"], [], []⟩
        (.call (.get (.var "mathlib") "square") [.literal (.pyint 4)]) =
      (⟨["mathlib"], [], [.unknownModule "mathlib"]⟩, none) := rfl

/-- C5 counterexample: for `1 + 1.5` both operands are numeric (no arithmetic
error is appended), the right operand infers `float`, yet the analyzer
infers `int` — the left operand's type — not `float` as the claim states. -/
theorem c5_int_plus_float_refuted :
    (visitExpr ⟨[], [], []⟩
        (.binary (.literal (.pyint 1)) "+" (.literal (.pyfloat "1.5")))).2 = some "int" ∧
      (visitExpr ⟨[], [], []⟩
        (.binary (.literal (.pyint 1)) "+" (.literal (.pyfloat "1.5")))).2 ≠ some "float" ∧
      (visitExpr ⟨[], [], []⟩
        (.binary (.literal (.pyint 1)) "+" (.literal (.pyfloat "1.5")))).1.errors = [] :=
  ⟨rfl, by decide, rfl⟩

/-- C5 (amended): for every arithmetic operator (`+ - * /`) the result type
is the LEFT operand's inferred type — so `a + b` with both operands numeric
infers `int` iff `a` infers `int` (`int + float` gives `int`, `float + int`
gives `float`) — and exactly one arithmetic-operand error is appended for
the node iff either operand fails to be numeric. -/
theorem c5_arith_left_type :
    (∀ (st : AState) (l r : Expr) (op : String), op ∈ arithOps →
        visitExpr st (.binary l op r) =
          (if isNumericT (visitExpr st l).2 = true ∧
              isNumericT (visitExpr (visitExpr st l).1 r).2 = true then
            (visitExpr (visitExpr st l).1 r).1
          else pushErr (visitExpr (visitExpr st l).1 r).1 .arithOperands,
          (visitExpr st l).2)) ∧
      ∀ (st : AState) (l r : Expr),
        isNumericT (visitExpr st l).2 = true →
        isNumericT (visitExpr (visitExpr st l).1 r).2 = true →
        ((visitExpr st (.binary l "+" r)).2 = some "int" ↔
          (visitExpr st l).2 = some "int") := by
  constructor
  · intro st l r op hop
    have h4 : op = "+" ∨ op = "-" ∨ op = "*" ∨ op = "/" := by simpa [arithOps] using hop
    rcases h4 with rfl | rfl | rfl | rfl <;>
      cases hl : isNumericT (visitExpr st l).2 <;>
        cases hr : isNumericT (visitExpr (visitExpr st l).1 r).2 <;>
          simp [visitExpr, arithOps, cmpOps, hl, hr]
  · intro st l r _ _
    have htype : (visitExpr st (.binary l "+" r)).2 = (visitExpr st l).2 := by
      simp [visitExpr, cmpOps]
    rw [htype]

/-- C5 witness: the amended rule at a concrete input — `2.0 + 1` infers
`int` iff its left operand does (it does not: the left operand is a float). -/
theorem c5_arith_left_type_witness :
    (visitExpr ⟨[], [], []⟩
        (.binary (.literal (.pyfloat "2.0")) "+" (.literal (.pyint 1)))).2 = some "int" ↔
      (visitExpr ⟨[], [], []⟩ (.literal (.pyfloat "2.0"))).2 = some "int" :=
  c5_arith_left_type.2 ⟨[], [], []⟩ (.literal (.pyfloat "2.0")) (.literal (.pyint 1)) rfl rfl

/-- C6: all block forms visit their statements against the one flat
per-function table, so a `VarDecl` whose (non-reserved) name is already
bound — at any nesting depth of bare blocks, `if` branches and `while`
bodies — appends the `already declared` error and leaves the state otherwise
unchanged: the name is not rebound. -/
theorem c6_flat_scope_redeclaration :
    ∀ (ws : List Wrap) (st : AState) (t n : String) (e : Expr) (ty : String),
      reservedVarNames.contains n = false →
      lookupVar st n = some ty →
      visitStmt st (nestStmt ws (.varDecl t n e)) = pushErr st (.alreadyDeclared n) := by
  intro ws
  induction ws with
  | nil =>
      intro st t n e ty hres hlook
      have hsome : (lookupVar st n).isSome = true := by rw [hlook]; rfl
      have hmem : n ∉ reservedVarNames := by simpa using hres
      simp [nestStmt, visitStmt, visitVarDecl, hres, hmem, hsome]
  | cons w ws ih =>
      intro st t n e ty hres hlook
      cases w with
      | inBlock =>
          simpa [nestStmt, visitStmt, visitStmtList] using ih st t n e ty hres hlook
      | inIf =>
          simpa [nestStmt, visitStmt, visitStmtList, visitExpr] using ih st t n e ty hres hlook
      | inWhile =>
          simpa [nestStmt, visitStmt, visitStmtList, visitExpr] using ih st t n e ty hres hlook

/-- C6 witness: redeclaring `x` inside an `if`-branch block of a function
whose table already binds `x` appends the error and changes nothing else. -/
theorem c6_flat_scope_redeclaration_witness :
    visitStmt ⟨[], [("x", "int")], []⟩
        (nestStmt [.inIf] (.varDecl "int" "x" (.literal (.pyint 1)))) =
      pushErr ⟨[], [("x", "int")], []⟩ (.alreadyDeclared "x") :=
  c6_flat_scope_redeclaration [.inIf] ⟨[], [("x", "int")], []⟩ "int" "x"
    (.literal (.pyint 1)) "int" rfl rfl

/-- C8: calls on `console` — `get_int`/`get_float`/`get_string` type as
`int`/`float`/`string` with an arity error appended iff the argument list is
non-empty; `write` recursively type-checks every argument and types as
`void`; any other method name appends the unknown-method error and yields no
type. -/
theorem c8_console_methods :
    ∀ (st : AState) (m : String) (args : List Expr),
      (m = "get_int" →
        visitExpr st (.call (.get (.var "console") m) args) =
          (if args.length ≠ 0 then pushErr st .getIntArity else st, some "int")) ∧
      (m = "get_float" →
        visitExpr st (.call (.get (.var "console") m) args) =
          (if args.length ≠ 0 then pushErr st .getFloatArity else st, some "float")) ∧
      (m = "get_string" →
        visitExpr st (.call (.get (.var "console") m) args) =
          (if args.length ≠ 0 then pushErr st .getStringArity else st, some "string")) ∧
      (m = "write" →
        visitExpr st (.call (.get (.var "console") m) args) =
          (visitExprList st args, some "void")) ∧
      (m ≠ "get_int" → m ≠ "get_float" → m ≠ "get_string" → m ≠ "write" →
        visitExpr st (.call (.get (.var "console") m) args) =
          (pushErr st (.unknownMethod "console" m), none)) := by
  intro st m args
  refine ⟨?_, ?_, ?_, ?_, ?_⟩
  · rintro rfl; rfl
  · rintro rfl; rfl
  · rintro rfl; rfl
  · rintro rfl; rfl
  · intro h1 h2 h3 h4
    simp [visitExpr, h1, h2, h3, h4]

/-- C8 witness: `console.get_int(7)` at a concrete state — types as `int`
with the arity error appended. -/
theorem c8_console_methods_witness :
    visitExpr ⟨[], [], []⟩ (.call (.get (.var "console") "get_int") [.literal (.pyint 7)]) =
      (pushErr ⟨[], [], []⟩ .getIntArity, some "int") := by
  have h := (c8_console_methods ⟨[], [], []⟩ "get_int" [.literal (.pyint 7)]).1 rfl
  simpa using h

/-- C9: statement visiting is a plain fold that never stops early on recorded
errors; `analyze` surfaces exactly the first accumulated error and discards
the rest; an assignment to an undeclared name records `not declared` and
yields no type; and on a concrete two-error program both errors are
accumulated while only the first escapes. -/
theorem c9_collect_then_raise_first :
    (∀ (st : AState) (stmts : List Stmt), visitStmtList st stmts = stmts.foldl visitStmt st) ∧
      (∀ (p : Program) (e : SemErr) (rest : List SemErr),
        (mainState p).errors = e :: rest → analyze p = .error e) ∧
      (∀ (st : AState) (n : String) (v : Expr), lookupVar st n = none →
        visitExpr st (.assign n v) = (pushErr st (.notDeclared n), none)) ∧
      (mainState ⟨[], ⟨"main", "void", [],
          [.exprStmt (.assign "x" (.literal (.pyint 1))),
           .exprStmt (.assign "y" (.literal (.pyint 2)))]⟩⟩).errors =
        [.notDeclared "x", .notDeclared "y"] ∧
      analyze ⟨[], ⟨"main", "void", [],
          [.exprStmt (.assign "x" (.literal (.pyint 1))),
           .exprStmt (.assign "y" (.literal (.pyint 2)))]⟩⟩ = .error (.notDeclared "x") := by
  refine ⟨?_, ?_, ?_, rfl, rfl⟩
  · intro st stmts
    induction stmts generalizing st with
    | nil => rfl
    | cons s ss ih => simp [visitStmtList, List.foldl, ih]
  · intro p e rest h
    simp [analyze, h]
  · intro st n v h
    simp [visitExpr, h]

/-- C9 witness: an assignment to the undeclared `z` at a concrete state
records the `not declared` error and yields no type. -/
theorem c9_collect_then_raise_first_witness :
    visitExpr ⟨[], [], []⟩ (.assign "z" (.literal (.pyint 3))) =
      (pushErr ⟨[], [], []⟩ (.notDeclared "z"), none) :=
  c9_collect_then_raise_first.2.2.1 ⟨[], [], []⟩ "z" (.literal (.pyint 3)) rfl

/-- C3: `Lexer._string` performs no escape decoding — the emitted
STRING_LITERAL lexeme is the raw character sequence between the delimiting
quotes.  Concretely, the source `"\n"` scans to the two-character lexeme
backslash-`n` (not a newline) and `"\e"` to backslash-`e` (not ESC); in
general a successful `stringBody` returns exactly the raw prefix up to the
first unescaped quote. -/
theorem c3_string_raw_lexeme :
    tokenize ['"', '\\', 'n', '"'] = .ok [⟨.stringLit, "\\n"⟩, ⟨.eof, ""⟩] ∧
      tokenize ['"', '\\', 'e', '"'] = .ok [⟨.stringLit, "\\e"⟩, ⟨.eof, ""⟩] ∧
      ∀ (cs content rest : List Char), stringBody cs = .ok (content, rest) →
        cs = content ++ '"' :: rest := by
  refine ⟨rfl, rfl, ?_⟩
  intro cs
  induction cs with
  | nil => intro content rest h; simp [stringBody] at h
  | cons c cs ih =>
      intro content rest h
      by_cases hc : c = '"'
      · subst hc
        simp [stringBody] at h
        obtain ⟨rfl, rfl⟩ := h
        rfl
      · simp [stringBody, hc] at h
        cases hsb : stringBody cs with
        | error e => rw [hsb] at h; simp at h
        | ok p =>
            obtain ⟨content2, rest2⟩ := p
            rw [hsb] at h
            simp at h
            obtain ⟨rfl, rfl⟩ := h
            simpa using ih content2 rest2 hsb

/-- C3 witness: the raw-prefix characterization at a concrete input. -/
theorem c3_string_raw_lexeme_witness :
    ['a', '"'] = ['a'] ++ '"' :: ([] : List Char) :=
  c3_string_raw_lexeme.2.2 ['a', '"'] ['a'] [] rfl

/-- C10 counterexample: scanning the two-character source quote-backslash
(an unterminated character literal) crashes with the modelled Python
`IndexError` — `_advance` past the end of the source — not with a
`SyntaxError` as the claim states for every missing closing quote. -/
theorem c10_backslash_eof_crash :
    tokenize ['\'', '\\'] = .error .indexErr := rfl

/-- C10 (amended): a character literal scans successfully to its single
decoded character exactly when it holds one raw character (not a newline,
not a bare backslash) or one recognized escape sequence, followed by the
closing quote; an unrecognized escape is an error; and every failure is a
`SyntaxError` except a backslash standing directly before end of input,
which crashes with an `IndexError`.  A successful `charBody` is surfaced as
a CHAR_LITERAL token whose lexeme is the decoded character. -/
theorem c10_char_literal :
    (∀ (cs : List Char) (c : Char) (rest : List Char),
        charBody cs = .ok (c, rest) ↔
          ((cs = c :: '\'' :: rest ∧ c ≠ '\n' ∧ c ≠ '\\') ∨
            ∃ e, cs = '\\' :: e :: '\'' :: rest ∧ decodeCharEscape e = some c)) ∧
      (∀ cs : List Char, charBody cs = .error .indexErr ↔ cs = ['\\']) ∧
      (∀ (e : Char) (rest : List Char), decodeCharEscape e = none →
        charBody ('\\' :: e :: rest) = .error (.fault (.unknownEscape e))) ∧
      ∀ (rest rest2 : List Char) (ch : Char), charBody rest = .ok (ch, rest2) →
        scanToken '\'' rest = .ok (some ⟨.charLit, String.mk [ch]⟩, rest2) := by
  refine ⟨?_, ?_, ?_, ?_⟩
  · intro cs c rest
    constructor
    · intro h
      rcases cs with _ | ⟨c0, rest0⟩
      · simp [charBody] at h
      · by_cases h0 : c0 = '\\'
        · subst h0
          rcases rest0 with _ | ⟨e, rest2⟩
          · simp [charBody] at h
          · simp [charBody] at h
            cases hd : decodeCharEscape e with
            | none => rw [hd] at h; simp at h
            | some ch =>
                rw [hd] at h
                rcases rest2 with _ | ⟨q, rest3⟩
                · simp at h
                · by_cases hq : q = '\''
                  · subst hq
                    simp at h
                    obtain ⟨rfl, rfl⟩ := h
                    exact Or.inr ⟨e, rfl, hd⟩
                  · simp [hq] at h
        · by_cases hn : c0 = '\n'
          · simp [charBody, h0, hn] at h
          · rcases rest0 with _ | ⟨q, rest2⟩
            · simp [charBody, h0, hn] at h
            · simp [charBody, h0, hn] at h
              by_cases hq : q = '\''
              · subst hq
                simp at h
                obtain ⟨rfl, rfl⟩ := h
                exact Or.inl ⟨rfl, hn, h0⟩
              · simp [hq] at h
    · rintro (⟨rfl, hn, hb⟩ | ⟨e, rfl, hd⟩)
      · simp [charBody, hb, hn]
      · simp [charBody, hd]
  · intro cs
    constructor
    · intro h
      rcases cs with _ | ⟨c0, rest0⟩
      · simp [charBody] at h
      · by_cases h0 : c0 = '\\'
        · subst h0
          rcases rest0 with _ | ⟨e, rest2⟩
          · rfl
          · simp [charBody] at h
            cases hd : decodeCharEscape e with
            | none => rw [hd] at h; simp at h
            | some ch =>
                rw [hd] at h
                rcases rest2 with _ | ⟨q, rest3⟩
                · simp at h
                · by_cases hq : q = '\'' <;> simp [hq] at h
        · by_cases hn : c0 = '\n'
          · simp [charBody, h0, hn] at h
          · rcases rest0 with _ | ⟨q, rest2⟩
            · simp [charBody, h0, hn] at h
            · simp [charBody, h0, hn] at h
              by_cases hq : q = '\'' <;> simp [hq] at h
    · rintro rfl
      rfl
  · intro e rest hd
    simp [charBody, hd]
  · intro rest rest2 ch h
    simp [scanToken, h]

/-- C10 witness: the amended characterization applied at the one-character
literal `a` followed by its closing quote. -/
theorem c10_char_literal_witness : charBody ['a', '\''] = .ok ('a', []) :=
  (c10_char_literal.1 ['a', '\''] 'a' []).mpr (Or.inl ⟨rfl, by decide, by decide⟩)

/-- C2: with an initializer present (token shape `<type> <name> = <expr> ;`)
`Parser._parse_var_decl` consumes the whole declaration and then raises the
unhandled Python `NameError` (local `type_name` referenced before
assignment) instead of returning a `VarDecl` or a `SyntaxError`; without an
initializer (and a type with a default) the declaration succeeds. -/
theorem c2_initializer_name_error :
    (∀ (fuel : Nat) (tt nameTok asTok sTok : Token) (rest sRest : List Token) (e : Expr),
        nameTok.type = .identifier → asTok.type = .assign →
        exprF fuel rest = .ok (e, sTok :: sRest) → sTok.type = .semicolon →
        varDeclF (fuel + 1) (tt :: nameTok :: asTok :: rest) = .error .nameErr) ∧
      ∀ (fuel : Nat) (tt nameTok sTok : Token) (rest : List Token) (init : Expr),
        nameTok.type = .identifier → sTok.type = .semicolon →
        defaultValue (tokTypeValue tt.type) = some init →
        varDeclF (fuel + 1) (tt :: nameTok :: sTok :: rest) =
          .ok (.varDecl (tokTypeValue tt.type) nameTok.lexeme init, rest) := by
  constructor
  · intro fuel tt nameTok asTok sTok rest sRest e hname hassign hexpr hsemi
    simp [varDeclF, advanceT, consume, matchT, hname, hassign, hexpr, hsemi]
  · intro fuel tt nameTok sTok rest init hname hsemi hdef
    simp [varDeclF, advanceT, consume, matchT, hname, hsemi, hdef]

/-- C2 witness: parsing the tokens of `int x = 5;` raises the `NameError`,
and the tokens of `int y;` succeed with the default initializer `0`. -/
theorem c2_initializer_name_error_witness :
    varDeclF 21 [⟨.int, "int"⟩, ⟨.identifier, "x"⟩, ⟨.assign, "="⟩,
        ⟨.integer, "5"⟩, ⟨.semicolon, ";"⟩, ⟨.eof, ""⟩] = .error .nameErr := by
  have hx : exprF 20 [⟨.integer, "5"⟩, ⟨.semicolon, ";"⟩, ⟨.eof, ""⟩] =
      .ok (.literal (.pyint 5), [⟨.semicolon, ";"⟩, ⟨.eof, ""⟩]) := rfl
  exact c2_initializer_name_error.1 20 ⟨.int, "int"⟩ ⟨.identifier, "x"⟩ ⟨.assign, "="⟩
    ⟨.semicolon, ";"⟩ [⟨.integer, "5"⟩, ⟨.semicolon, ";"⟩, ⟨.eof, ""⟩] [⟨.eof, ""⟩]
    (.literal (.pyint 5)) rfl rfl hx rfl

/-- The import loop of `parse` consumes exactly a well-formed `use` prefix. -/
theorem parseUses_useTokens :
    ∀ (mods : List String) (t : Token) (rest : List Token), t.type ≠ .use →
      parseUses (useTokens mods ++ t :: rest) = .ok (mods.map UseDecl.mk, t :: rest) := by
  intro mods
  induction mods with
  | nil =>
      intro t rest h
      rw [useTokens, List.nil_append, parseUses.eq_def]
      simp [h]
  | cons m ms ih =>
      intro t rest h
      rw [useTokens, List.cons_append, parseUses.eq_def]
      simp [ih t rest h]

/-- Inversion: a successful main-mode `_function_decl` always yields the
`FunctionDecl("main", "void", [], …)` node. -/
theorem functionDeclF_main_shape :
    ∀ (fuel : Nat) (rem r : List Token) (f : FunctionDecl),
      functionDeclF fuel true rem = .ok (f, r) →
      f.name = "main" ∧ f.return_type = "void" ∧ f.params = [] := by
  intro fuel rem r f h
  cases h1 : consume .main rem with
  | error e => simp [functionDeclF, h1] at h
  | ok p1 =>
      obtain ⟨tok1, r1⟩ := p1
      cases h2 : consume .lparen r1 with
      | error e => simp [functionDeclF, h1, h2] at h
      | ok p2 =>
          obtain ⟨tok2, r2⟩ := p2
          cases h3 : consume .rparen r2 with
          | error e => simp [functionDeclF, h1, h2, h3] at h
          | ok p3 =>
              obtain ⟨tok3, r3⟩ := p3
              cases h4 : blockF fuel r3 with
              | error e => simp [functionDeclF, h1, h2, h3, h4] at h
              | ok p4 =>
                  obtain ⟨body, r4⟩ := p4
                  simp [functionDeclF, h1, h2, h3, h4] at h
                  obtain ⟨rfl, rfl⟩ := h
                  exact ⟨rfl, rfl, rfl⟩

/-- C1 (amended): `Parser.parse` accepts exactly zero or more
`use <identifier>;` imports followed by one `main() { … }` and end of input.
There is no global-function phase: after the imports, any token other than
`main` — in particular the `void` of `void function square(int n) { … }` —
raises the `SyntaxError` "expected main"; every successfully parsed program
has `main_func` named `main` with return type `void` and no parameters; and
a well-formed `use io; main() { }` parses to exactly that `Program`. -/
theorem c1_parse_top_level :
    (∀ (fuel : Nat) (mods : List String) (t : Token) (rest : List Token),
        t.type ≠ .use → t.type ≠ .main →
        parse fuel (useTokens mods ++ t :: rest) = .error (.fault (.expected .main t))) ∧
      (∀ (fuel : Nat) (ts : List Token) (p : Program), parse fuel ts = .ok p →
        p.main_func.name = "main" ∧ p.main_func.return_type = "void" ∧
          p.main_func.params = []) ∧
      parse 20 (useTokens ["io"] ++
          [⟨.main, "main"⟩, ⟨.lparen, "("⟩, ⟨.rparen, ")"⟩, ⟨.lbrace, "\x7b"⟩,
           ⟨.rbrace, "\x7d"⟩, ⟨.eof, ""⟩]) =
        .ok ⟨[⟨"io"⟩], ⟨"main", "void", [], []⟩⟩ := by
  refine ⟨?_, ?_, rfl⟩
  · intro fuel mods t rest h1 h2
    by_cases heof : t.type = .eof
    · simp [parse, parseUses_useTokens mods t rest h1, functionDeclF, consume, heof]
    · simp [parse, parseUses_useTokens mods t rest h1, functionDeclF, consume, heof, h2]
  · intro fuel ts p h
    cases hu : parseUses ts with
    | error e => simp [parse, hu] at h
    | ok pr =>
        obtain ⟨imps, r1⟩ := pr
        cases hf : functionDeclF fuel true r1 with
        | error e => simp [parse, hu, hf] at h
        | ok pf =>
            obtain ⟨f, r2⟩ := pf
            have hshape := functionDeclF_main_shape fuel r1 r2 f hf
            cases r2 with
            | nil => simp [parse, hu, hf] at h
            | cons tok r2t =>
                by_cases heof : tok.type = .eof
                · simp [parse, hu, hf, heof] at h
                  obtain rfl := h
                  exact hshape
                · simp [parse, hu, hf, heof] at h

/-- C1 counterexample: the claim's own example — `void function square(int n)
{ } main() { }` — does not parse into a program with global functions; it
raises the `SyntaxError` "expected main, found void". -/
theorem c1_global_function_refuted :
    parse 50 [⟨.void, "void"⟩, ⟨.function, "function"⟩, ⟨.identifier, "square"⟩,
        ⟨.lparen, "("⟩, ⟨.int, "int"⟩, ⟨.identifier, "n"⟩, ⟨.rparen, ")"⟩,
        ⟨.lbrace, "\x7b"⟩, ⟨.rbrace, "\x7d"⟩,
        ⟨.main, "main"⟩, ⟨.lparen, "("⟩, ⟨.rparen, ")"⟩,
        ⟨.lbrace, "\x7b"⟩, ⟨.rbrace, "\x7d"⟩, ⟨.eof, ""⟩] =
      .error (.fault (.expected .main ⟨.void, "void"⟩)) := rfl

end Idyllium
